import Mathlib

/-!
Verification development for the tone-curve-viz color pipeline.

The fragment shader in src/shaders/photo-editor.ts (the Kelvin-based variant)
is embedded over the reals: GLSL float arithmetic is modelled by exact real
arithmetic, `pow(2.0, e)` by `Real.rpow`, `log` by `Real.log`.  The pixel-loop
helpers of the React component (calculateHistogram, calculateAutoSettings,
calculateToneCurves, handleAutoAdjust's merge) are embedded over ℕ/ℚ/ℝ.
-/

namespace ToneCurve

/-- GLSL vec3.  Components `x`, `y`, `z`; the shader's `r`, `g`, `b` swizzles
are the same components under other names. -/
structure Vec3 where
  x : ℝ
  y : ℝ
  z : ℝ

/-- GLSL vec4 (rgba); `w` is the alpha component. -/
structure Vec4 where
  x : ℝ
  y : ℝ
  z : ℝ
  w : ℝ

/-- GLSL `clamp(x, lo, hi) = min(max(x, lo), hi)`. -/
noncomputable def clampR (lo hi x : ℝ) : ℝ := min hi (max lo x)

/-- Componentwise product, GLSL `a * b` on vec3. -/
noncomputable def vmul (a b : Vec3) : Vec3 := ⟨a.x * b.x, a.y * b.y, a.z * b.z⟩

/-- Scalar times vec3, GLSL `k * v`. -/
noncomputable def vscale (k : ℝ) (v : Vec3) : Vec3 := ⟨k * v.x, k * v.y, k * v.z⟩

/-- GLSL `smoothstep(edge0, edge1, x)`:
`t = clamp((x-edge0)/(edge1-edge0), 0, 1); t*t*(3-2*t)`. -/
noncomputable def smoothstep (edge0 edge1 x : ℝ) : ℝ :=
  let t := clampR 0 1 ((x - edge0) / (edge1 - edge0))
  t * t * (3 - 2 * t)

/-- `temperatureToRGB` from the fragment shader (Tanner Helland fit):
`temp = kelvin/100`; red and green from the `temp <= 66` branch pair,
blue from its own three-way branch; result clamped to [0,1] componentwise. -/
noncomputable def temperatureToRGB (kelvin : ℝ) : Vec3 :=
  let temp := kelvin / 100
  let r := if temp ≤ 66 then (1 : ℝ)
           else 1.29293618606274509804 * (temp - 60) ^ (-0.1332047592 : ℝ)
  let g := if temp ≤ 66 then 0.39008157876901960784 * Real.log temp - 0.63184144378862745098
           else 1.12989086089529411765 * (temp - 60) ^ (-0.0755148492 : ℝ)
  let b := if 66 ≤ temp then (1 : ℝ)
           else if temp ≤ 19 then (0 : ℝ)
           else 0.54320678911019607843 * Real.log (temp - 10) - 1.19625408914
  ⟨clampR 0 1 r, clampR 0 1 g, clampR 0 1 b⟩

/-- `hueToRgb(p, q, t)` from the fragment shader. -/
noncomputable def hueToRgb (p q t : ℝ) : ℝ :=
  let t := if t < 0 then t + 1 else t
  let t := if t > 1 then t - 1 else t
  if t < 1 / 6 then p + (q - p) * 6 * t
  else if t < 1 / 2 then q
  else if t < 2 / 3 then p + (q - p) * (2 / 3 - t) * 6
  else p

/-- `hslToRgb` from the fragment shader (hsl packed into a vec3 as x=H, y=S, z=L). -/
noncomputable def hslToRgb (hsl : Vec3) : Vec3 :=
  if hsl.y = 0 then ⟨hsl.z, hsl.z, hsl.z⟩
  else
    let q := if hsl.z < 0.5 then hsl.z * (1 + hsl.y) else hsl.z + hsl.y - hsl.z * hsl.y
    let p := 2 * hsl.z - q
    ⟨hueToRgb p q (hsl.x + 1 / 3), hueToRgb p q hsl.x, hueToRgb p q (hsl.x - 1 / 3)⟩

/-- `rgbToHsl` from the fragment shader. -/
noncomputable def rgbToHsl (rgb : Vec3) : Vec3 :=
  let maxVal := max (max rgb.x rgb.y) rgb.z
  let minVal := min (min rgb.x rgb.y) rgb.z
  let delta := maxVal - minVal
  let l := (maxVal + minVal) / 2
  if delta ≠ 0 then
    let s := if l < 0.5 then delta / (maxVal + minVal) else delta / (2 - maxVal - minVal)
    let h := if maxVal = rgb.x then (rgb.y - rgb.z) / delta + (if rgb.y < rgb.z then 6 else 0)
             else if maxVal = rgb.y then (rgb.z - rgb.x) / delta + 2
             else (rgb.x - rgb.y) / delta + 4
    ⟨h / 6, s, l⟩
  else ⟨0, 0, l⟩

/-- The ten photo-editing uniforms (PhotoSettings in PhotoEditor.tsx). -/
structure PhotoSettings where
  temperature : ℝ
  tint : ℝ
  exposure : ℝ
  highlights : ℝ
  shadows : ℝ
  whites : ℝ
  blacks : ℝ
  contrast : ℝ
  vibrance : ℝ
  saturation : ℝ

/-- DEFAULT_SETTINGS from PhotoEditor.tsx. -/
noncomputable def DEFAULT_SETTINGS : PhotoSettings :=
  { temperature := 5500, tint := 0, exposure := 0, highlights := 0, shadows := 0
    whites := 0, blacks := 0, contrast := 50, vibrance := 0, saturation := 0 }

/-- The declared slider ranges of the ten fields (the `ranges` table in
`renderSlider`). -/
def inRange (s : PhotoSettings) : Prop :=
  2000 ≤ s.temperature ∧ s.temperature ≤ 12000 ∧
  -150 ≤ s.tint ∧ s.tint ≤ 150 ∧
  -5 ≤ s.exposure ∧ s.exposure ≤ 5 ∧
  -100 ≤ s.highlights ∧ s.highlights ≤ 100 ∧
  -100 ≤ s.shadows ∧ s.shadows ≤ 100 ∧
  -100 ≤ s.whites ∧ s.whites ≤ 100 ∧
  -100 ≤ s.blacks ∧ s.blacks ≤ 100 ∧
  0 ≤ s.contrast ∧ s.contrast ≤ 100 ∧
  -100 ≤ s.vibrance ∧ s.vibrance ≤ 100 ∧
  -100 ≤ s.saturation ∧ s.saturation ≤ 100

/-- `main()` of the fragment shader: the full per-pixel transform.
Stages in source order: white balance (temperature + tint), exposure,
highlights/shadows, whites/blacks, contrast, saturation/vibrance in HSL,
final clamp; alpha carried through. -/
noncomputable def transform (color : Vec4) (s : PhotoSettings) : Vec4 :=
  let rgb : Vec3 := ⟨color.x, color.y, color.z⟩
  -- 1. White Balance
  let tempColor := temperatureToRGB s.temperature
  let rgb := vmul rgb tempColor
  let rgb := vmul rgb ⟨1 + s.tint * 0.01 * (-1), 1 + s.tint * 0.01 * 1, 1 + s.tint * 0.01 * (-1)⟩
  -- 2. Exposure
  let rgb := vscale ((2 : ℝ) ^ s.exposure) rgb
  -- 3. Highlights and Shadows
  let luminance := 0.299 * rgb.x + 0.587 * rgb.y + 0.114 * rgb.z
  let highlightsMask := smoothstep 0.5 1.0 luminance
  let shadowsMask := smoothstep 0.5 0.0 luminance
  let rgb := vscale (1 + s.highlights * 0.01 * highlightsMask) rgb
  let rgb := vscale (1 + s.shadows * 0.01 * shadowsMask) rgb
  -- 4. Whites and Blacks
  let whitesMask := smoothstep 0.75 1.0 luminance
  let blacksMask := smoothstep 0.25 0.0 luminance
  let rgb := vscale (1 + s.whites * 0.01 * whitesMask) rgb
  let rgb := vscale (1 + s.blacks * 0.01 * blacksMask) rgb
  -- 5. Contrast
  let contrastFactor := (s.contrast - 50) / 50
  let rgb : Vec3 := ⟨(rgb.x - 0.5) * (contrastFactor + 1) + 0.5,
                     (rgb.y - 0.5) * (contrastFactor + 1) + 0.5,
                     (rgb.z - 0.5) * (contrastFactor + 1) + 0.5⟩
  -- 6. Saturation and Vibrance
  let hsl := rgbToHsl rgb
  let hsl := { hsl with y := hsl.y * (1 + s.saturation * 0.01) }
  let satMask := 1 - hsl.y
  let hsl := { hsl with y := hsl.y * (1 + s.vibrance * 0.01 * satMask) }
  let rgb := hslToRgb hsl
  ⟨clampR 0 1 rgb.x, clampR 0 1 rgb.y, clampR 0 1 rgb.z, color.w⟩

/-- DEFAULT_SETTINGS with the temperature moved to the actual neutral point of
the Tanner Helland fit (66 in `temp = kelvin/100` units, i.e. 6600 K). -/
noncomputable def CALIBRATION_SETTINGS : PhotoSettings :=
  { DEFAULT_SETTINGS with temperature := 6600 }

/-- CALIBRATION_SETTINGS with the contrast uniform replaced; used to compare
an out-of-range contrast against its nearest in-range boundary. -/
noncomputable def contrastSettings (c : ℝ) : PhotoSettings :=
  { CALIBRATION_SETTINGS with contrast := c }

/-! ### Histogram / auto-adjust / tone-curve helpers (PhotoEditor.tsx) -/

/-- One RGBA8 pixel as read back by `gl.readPixels` (bytes 0..255). -/
structure Pixel where
  r : Fin 256
  g : Fin 256
  b : Fin 256
  a : Fin 256

/-- The four 256-bin count arrays of `calculateHistogram`, as bin-indexed
count functions. -/
structure Histogram where
  r : ℕ → ℕ
  g : ℕ → ℕ
  b : ℕ → ℕ
  luminance : ℕ → ℕ

/-- The luminance bin of a pixel: `Math.round(0.2126*r + 0.7152*g + 0.0722*b)`. -/
def lumBin (p : Pixel) : ℕ :=
  (round ((0.2126 * (p.r : ℚ) + 0.7152 * (p.g : ℚ) + 0.0722 * (p.b : ℚ) : ℚ))).toNat

/-- The empty histogram (`new Uint32Array(256).fill(0)` for each channel). -/
def emptyHistogram : Histogram := ⟨fun _ => 0, fun _ => 0, fun _ => 0, fun _ => 0⟩

/-- One step of the pixel loop of `calculateHistogram`: increment
`r[rVal]`, `g[gVal]`, `b[bVal]`, `luminance[lum]`. -/
def histStep (h : Histogram) (p : Pixel) : Histogram :=
  { r := Function.update h.r (p.r : ℕ) (h.r (p.r : ℕ) + 1)
    g := Function.update h.g (p.g : ℕ) (h.g (p.g : ℕ) + 1)
    b := Function.update h.b (p.b : ℕ) (h.b (p.b : ℕ) + 1)
    luminance := Function.update h.luminance (lumBin p) (h.luminance (lumBin p) + 1) }

/-- `calculateHistogram`: one linear pass over the pixel buffer. -/
def calculateHistogram (pixels : List Pixel) : Histogram :=
  pixels.foldl histStep emptyHistogram

/-- `histogram.luminance.reduce((a, b) => a + b, 0)` — the pixel total. -/
def totalPixels (h : Histogram) : ℕ := ∑ i in Finset.range 256, h.luminance i

/-- Black point of `calculateAutoSettings`: the first `i` whose running
luminance sum exceeds 0.5% of the pixels, else 0.  The running sum at `i`
is the prefix sum over bins `0..i`. -/
def blackPoint (h : Histogram) : ℕ :=
  (((List.range 256).find? fun i =>
      decide ((totalPixels h : ℚ) * 0.005 < ∑ j in Finset.range (i + 1), (h.luminance j : ℚ)))).getD 0

/-- White point of `calculateAutoSettings`: scanning `i = 255` down to 0, the
first `i` whose running sum (over bins `i..255`) exceeds 0.5% of the pixels,
else 255. -/
def whitePoint (h : Histogram) : ℕ :=
  255 - (((List.range 256).find? fun k =>
      decide ((totalPixels h : ℚ) * 0.005 <
        ∑ j in Finset.Icc (255 - k) 255, (h.luminance j : ℚ)))).getD 0

/-- `calculateAutoSettings` from PhotoEditor.tsx.  Returns an object holding
all ten fields (the five non-derived ones are set to 0). -/
noncomputable def calculateAutoSettings (h : Histogram) : PhotoSettings :=
  let total : ℝ := (totalPixels h : ℝ)
  let rAvg := (∑ i in Finset.range 256, (h.r i : ℝ) * i) / total
  let gAvg := (∑ i in Finset.range 256, (h.g i : ℝ) * i) / total
  let bAvg := (∑ i in Finset.range 256, (h.b i : ℝ) * i) / total
  let avgBrightness := (rAvg + gAvg + bAvg) / 3
  let exposureAdjustment := Real.logb 2 (127.5 / avgBrightness)
  let bp := blackPoint h
  let wp := whitePoint h
  let histogramSpread : ℝ := (wp : ℝ) - (bp : ℝ)
  let contrastAdjustment := min 100 (max 40 (50 + (histogramSpread / 255 - 0.5) * 50))
  let tempAdjustment := 5500 + (bAvg - rAvg) * 25
  { exposure := max (-2) (min 2 exposureAdjustment)
    contrast := contrastAdjustment
    temperature := min 12000 (max 2000 tempAdjustment)
    blacks := max (-50) ((bp : ℝ) / 2)
    whites := min 50 ((255 - (wp : ℝ)) / 2)
    highlights := 0
    shadows := 0
    tint := 0
    vibrance := 0
    saturation := 0 }

/-- `setSettings(prev => ({...prev, ...autoSettings}))` in `handleAutoAdjust`:
the spread overwrites every field present in the auto patch — which is all
ten of them. -/
noncomputable def mergedAutoSettings (prev : PhotoSettings) (h : Histogram) : PhotoSettings :=
  let auto := calculateAutoSettings h
  { prev with
    exposure := auto.exposure, contrast := auto.contrast, temperature := auto.temperature
    blacks := auto.blacks, whites := auto.whites, highlights := auto.highlights
    shadows := auto.shadows, tint := auto.tint, vibrance := auto.vibrance
    saturation := auto.saturation }

/-- One tone-curve point (x: input level 0..255, y: output level). -/
structure CurvePoint where
  x : ℕ
  y : ℤ
  deriving DecidableEq

/-- The byte read back for curve pixel `i`: the gradient texel `i` has
`R=G=B=i/255` (createGradientPixmap normalized), it is pushed through the
fragment shader, and the unsigned-normalized readback of the red channel is
`round(255 * R_out)`. -/
noncomputable def pipelineByte (s : PhotoSettings) (i : ℕ) : ℤ :=
  round (255 * (transform ⟨(i : ℝ) / 255, (i : ℝ) / 255, (i : ℝ) / 255, 1⟩ s).x)

/-- `calculateToneCurves`: 256 points, `x = i`,
`y = Math.min(255, Math.max(0, pixels[i*4]))`. -/
noncomputable def calculateToneCurves (s : PhotoSettings) : List CurvePoint :=
  (List.range 256).map fun i => ⟨i, min 255 (max 0 (pipelineByte s i))⟩

/-- The all-white one-pixel histogram: every channel has one count in bin 255. -/
def histAll255 : Histogram :=
  ⟨fun i => if i = 255 then 1 else 0, fun i => if i = 255 then 1 else 0,
   fun i => if i = 255 then 1 else 0, fun i => if i = 255 then 1 else 0⟩

/-! ### Elementary clamp lemmas -/

theorem clampR_of_mem {x : ℝ} (h0 : 0 ≤ x) (h1 : x ≤ 1) : clampR 0 1 x = x := by
  unfold clampR
  rw [max_eq_right h0, min_eq_right h1]

theorem clampR_nonneg (x : ℝ) : 0 ≤ clampR 0 1 x :=
  le_min zero_le_one (le_max_left 0 x)

theorem clampR_le_one (x : ℝ) : clampR 0 1 x ≤ 1 := min_le_left 1 _

theorem clampR_eq_one_of_le {x : ℝ} (h : 1 ≤ x) : clampR 0 1 x = 1 := by
  unfold clampR
  rw [max_eq_right (le_trans zero_le_one h), min_eq_left h]

/-! ### Rational brackets for the logarithms used by the Kelvin fit -/

theorem log_diff_le (a b : ℝ) (ha : 0 < a) (hab : a ≤ b) :
    Real.log b - Real.log a ≤ (b - a) / a := by
  have hb : 0 < b := lt_of_lt_of_le ha hab
  have h := Real.log_le_sub_one_of_pos (div_pos hb ha)
  rw [Real.log_div (ne_of_gt hb) (ne_of_gt ha)] at h
  have : b / a - 1 = (b - a) / a := by field_simp
  linarith [h, this.le]

theorem le_log_diff (a b : ℝ) (ha : 0 < a) (hab : a ≤ b) :
    (b - a) / b ≤ Real.log b - Real.log a := by
  have hb : 0 < b := lt_of_lt_of_le ha hab
  have h := Real.one_sub_inv_le_log_of_pos (div_pos hb ha)
  rw [Real.log_div (ne_of_gt hb) (ne_of_gt ha)] at h
  have : 1 - (b / a)⁻¹ = (b - a) / b := by field_simp
  linarith [h, this.le]

theorem log_five_bounds : 1.60934 < Real.log 5 ∧ Real.log 5 < 1.60954 := by
  have e128 : Real.log 128 = 7 * Real.log 2 := by
    rw [show (128 : ℝ) = 2 ^ 7 by norm_num, Real.log_pow]
    norm_num
  have e125 : Real.log 125 = 3 * Real.log 5 := by
    rw [show (125 : ℝ) = 5 ^ 3 by norm_num, Real.log_pow]
    norm_num
  have h1 := log_diff_le 125 128 (by norm_num) (by norm_num)
  have h2 := le_log_diff 125 128 (by norm_num) (by norm_num)
  rw [e128, e125] at h1 h2
  constructor <;> nlinarith [Real.log_two_gt_d9, Real.log_two_lt_d9]

theorem log_eleven_bounds : 2.39708 < Real.log 11 ∧ Real.log 11 < 2.39868 := by
  have e128 : Real.log 128 = 7 * Real.log 2 := by
    rw [show (128 : ℝ) = 2 ^ 7 by norm_num, Real.log_pow]
    norm_num
  have e121 : Real.log 121 = 2 * Real.log 11 := by
    rw [show (121 : ℝ) = 11 ^ 2 by norm_num, Real.log_pow]
    norm_num
  have h1 := log_diff_le 121 128 (by norm_num) (by norm_num)
  have h2 := le_log_diff 121 128 (by norm_num) (by norm_num)
  rw [e128, e121] at h1 h2
  constructor <;> nlinarith [Real.log_two_gt_d9, Real.log_two_lt_d9]

theorem log_three_bounds : 1.09856 < Real.log 3 ∧ Real.log 3 < 1.09866 := by
  have e81 : Real.log 81 = 4 * Real.log 3 := by
    rw [show (81 : ℝ) = 3 ^ 4 by norm_num, Real.log_pow]
    norm_num
  have e80 : Real.log 80 = 4 * Real.log 2 + Real.log 5 := by
    rw [show (80 : ℝ) = 2 ^ 4 * 5 by norm_num,
      Real.log_mul (by norm_num) (by norm_num), Real.log_pow]
    norm_num
  have h1 := log_diff_le 80 81 (by norm_num) (by norm_num)
  have h2 := le_log_diff 80 81 (by norm_num) (by norm_num)
  rw [e81, e80] at h1 h2
  obtain ⟨l5a, l5b⟩ := log_five_bounds
  constructor <;> nlinarith [Real.log_two_gt_d9, Real.log_two_lt_d9]

theorem log_55_bounds : 4.00642 < Real.log 55 ∧ Real.log 55 < 4.00822 := by
  have e : Real.log 55 = Real.log 5 + Real.log 11 := by
    rw [show (55 : ℝ) = 5 * 11 by norm_num, Real.log_mul (by norm_num) (by norm_num)]
  obtain ⟨a1, a2⟩ := log_five_bounds
  obtain ⟨b1, b2⟩ := log_eleven_bounds
  constructor <;> · rw [e]; linarith

theorem log_45_bounds : 3.80646 < Real.log 45 ∧ Real.log 45 < 3.80686 := by
  have e : Real.log 45 = 2 * Real.log 3 + Real.log 5 := by
    rw [show (45 : ℝ) = 3 ^ 2 * 5 by norm_num,
      Real.log_mul (by norm_num) (by norm_num), Real.log_pow]
    norm_num
  obtain ⟨a1, a2⟩ := log_three_bounds
  obtain ⟨b1, b2⟩ := log_five_bounds
  constructor <;> · rw [e]; linarith

theorem log_66_gt : 4.18878 < Real.log 66 := by
  have e : Real.log 66 = Real.log 2 + Real.log 3 + Real.log 11 := by
    rw [show (66 : ℝ) = 2 * 3 * 11 by norm_num,
      Real.log_mul (by norm_num) (by norm_num), Real.log_mul (by norm_num) (by norm_num)]
  obtain ⟨a1, _⟩ := log_three_bounds
  obtain ⟨b1, _⟩ := log_eleven_bounds
  rw [e]
  linarith [Real.log_two_gt_d9]

/-! ### Evaluating the Kelvin fit at the relevant temperatures -/

theorem temperatureToRGB_5500 :
    temperatureToRGB 5500 =
      ⟨1, 0.39008157876901960784 * Real.log 55 - 0.63184144378862745098,
          0.54320678911019607843 * Real.log 45 - 1.19625408914⟩ := by
  obtain ⟨g1, g2⟩ := log_55_bounds
  obtain ⟨b1, b2⟩ := log_45_bounds
  have ht : (5500 : ℝ) / 100 = 55 := by norm_num
  simp only [temperatureToRGB, ht]
  rw [if_pos (by norm_num : (55 : ℝ) ≤ 66), if_pos (by norm_num : (55 : ℝ) ≤ 66),
    if_neg (by norm_num : ¬(66 : ℝ) ≤ 55),
    if_neg (by norm_num : ¬(55 : ℝ) ≤ 19), show (55 : ℝ) - 10 = 45 by norm_num]
  have hg0 : (0 : ℝ) ≤ 0.39008157876901960784 * Real.log 55 - 0.63184144378862745098 := by
    nlinarith
  have hg1 : 0.39008157876901960784 * Real.log 55 - 0.63184144378862745098 ≤ 1 := by
    nlinarith
  have hb0 : (0 : ℝ) ≤ 0.54320678911019607843 * Real.log 45 - 1.19625408914 := by
    nlinarith
  have hb1 : 0.54320678911019607843 * Real.log 45 - 1.19625408914 ≤ 1 := by
    nlinarith
  rw [clampR_of_mem zero_le_one le_rfl, clampR_of_mem hg0 hg1, clampR_of_mem hb0 hb1]

theorem t5500_y_bounds :
    0.92 ≤ (temperatureToRGB 5500).y ∧ (temperatureToRGB 5500).y ≤ 0.94 := by
  rw [temperatureToRGB_5500]
  obtain ⟨g1, g2⟩ := log_55_bounds
  constructor <;> · simp only; nlinarith

theorem t5500_z_bounds :
    0.86 ≤ (temperatureToRGB 5500).z ∧ (temperatureToRGB 5500).z ≤ 0.88 := by
  rw [temperatureToRGB_5500]
  obtain ⟨b1, b2⟩ := log_45_bounds
  constructor <;> · simp only; nlinarith

theorem temperatureToRGB_6600 : temperatureToRGB 6600 = ⟨1, 1, 1⟩ := by
  have ht : (6600 : ℝ) / 100 = 66 := by norm_num
  simp only [temperatureToRGB, ht]
  rw [if_pos (le_refl (66 : ℝ)), if_pos (le_refl (66 : ℝ)), if_pos (le_refl (66 : ℝ))]
  have hg : (1 : ℝ) ≤ 0.39008157876901960784 * Real.log 66 - 0.63184144378862745098 := by
    nlinarith [log_66_gt]
  rw [clampR_of_mem zero_le_one le_rfl, clampR_eq_one_of_le hg]

/-! ### Branch values of hueToRgb -/

theorem hueToRgb_lin (p q t : ℝ) (h0 : 0 ≤ t) (h : t < 1 / 6) :
    hueToRgb p q t = p + (q - p) * 6 * t := by
  simp only [hueToRgb]
  rw [if_neg (not_lt.mpr h0), if_neg (not_lt.mpr (by linarith : t ≤ 1)), if_pos h]

theorem hueToRgb_q (p q t : ℝ) (h1 : 1 / 6 ≤ t) (h2 : t < 1 / 2) :
    hueToRgb p q t = q := by
  simp only [hueToRgb]
  rw [if_neg (not_lt.mpr (by linarith : (0 : ℝ) ≤ t)),
    if_neg (not_lt.mpr (by linarith : t ≤ 1)), if_neg (not_lt.mpr h1), if_pos h2]

theorem hueToRgb_mid (p q t : ℝ) (h1 : 1 / 2 ≤ t) (h2 : t < 2 / 3) :
    hueToRgb p q t = p + (q - p) * (2 / 3 - t) * 6 := by
  simp only [hueToRgb]
  rw [if_neg (not_lt.mpr (by linarith : (0 : ℝ) ≤ t)),
    if_neg (not_lt.mpr (by linarith : t ≤ 1)),
    if_neg (not_lt.mpr (by linarith : 1 / 6 ≤ t)), if_neg (not_lt.mpr h1), if_pos h2]

theorem hueToRgb_last (p q t : ℝ) (h1 : 2 / 3 ≤ t) (h2 : t ≤ 1) :
    hueToRgb p q t = p := by
  simp only [hueToRgb]
  rw [if_neg (not_lt.mpr (by linarith : (0 : ℝ) ≤ t)), if_neg (not_lt.mpr h2),
    if_neg (not_lt.mpr (by linarith : 1 / 6 ≤ t)),
    if_neg (not_lt.mpr (by linarith : 1 / 2 ≤ t)), if_neg (not_lt.mpr h1)]

theorem hueToRgb_up_lin (p q t : ℝ) (h : 1 < t) (h2 : t < 7 / 6) :
    hueToRgb p q t = p + (q - p) * 6 * (t - 1) := by
  simp only [hueToRgb]
  rw [if_neg (not_lt.mpr (by linarith : (0 : ℝ) ≤ t)), if_pos h,
    if_pos (by linarith : t - 1 < 1 / 6)]

theorem hueToRgb_up_q (p q t : ℝ) (h1 : 7 / 6 ≤ t) (h2 : t < 3 / 2) :
    hueToRgb p q t = q := by
  simp only [hueToRgb]
  rw [if_neg (not_lt.mpr (by linarith : (0 : ℝ) ≤ t)), if_pos (by linarith : 1 < t),
    if_neg (not_lt.mpr (by linarith : 1 / 6 ≤ t - 1)), if_pos (by linarith : t - 1 < 1 / 2)]

theorem hueToRgb_down_p (p q t : ℝ) (h : t < 0) (h1 : -1 / 3 ≤ t) :
    hueToRgb p q t = p := by
  simp only [hueToRgb]
  rw [if_pos h, if_neg (not_lt.mpr (by linarith : t + 1 ≤ 1)),
    if_neg (not_lt.mpr (by linarith : 1 / 6 ≤ t + 1)),
    if_neg (not_lt.mpr (by linarith : 1 / 2 ≤ t + 1)),
    if_neg (not_lt.mpr (by linarith : 2 / 3 ≤ t + 1))]

/-- For a chromatic color the `q` computed by hslToRgb is the channel maximum
and the `p` is the channel minimum, so hslToRgb reduces to three hueToRgb
evaluations with `p = m`, `q = M`. -/
theorem hslToRgb_pq (m M h : ℝ) (hm0 : 0 ≤ m) (hM1 : M ≤ 1) (hmM : m < M) :
    hslToRgb ⟨h,
        if (M + m) / 2 < 0.5 then (M - m) / (M + m) else (M - m) / (2 - M - m),
        (M + m) / 2⟩ =
      ⟨hueToRgb m M (h + 1 / 3), hueToRgb m M h, hueToRgb m M (h - 1 / 3)⟩ := by
  have hSpos : 0 < (if (M + m) / 2 < 0.5 then (M - m) / (M + m) else (M - m) / (2 - M - m)) := by
    by_cases hL : (M + m) / 2 < 0.5
    · rw [if_pos hL]
      have hMp : 0 < M + m := by
        have : 0 ≤ m := hm0
        nlinarith [lt_of_le_of_lt hm0 hmM]
      exact div_pos (by linarith) hMp
    · rw [if_neg hL]
      have h2 : 0 < 2 - M - m := by
        push_neg at hL
        nlinarith
      exact div_pos (by linarith) h2
  have hq : (if (M + m) / 2 < 0.5
        then (M + m) / 2 * (1 + (if (M + m) / 2 < 0.5 then (M - m) / (M + m) else (M - m) / (2 - M - m)))
        else (M + m) / 2 + (if (M + m) / 2 < 0.5 then (M - m) / (M + m) else (M - m) / (2 - M - m)) -
          (M + m) / 2 * (if (M + m) / 2 < 0.5 then (M - m) / (M + m) else (M - m) / (2 - M - m))) = M := by
    by_cases hL : (M + m) / 2 < 0.5
    · rw [if_pos hL, if_pos hL]
      have hMp : 0 < M + m := by nlinarith [lt_of_le_of_lt hm0 hmM]
      field_simp
      ring
    · rw [if_neg hL, if_neg hL]
      have h2 : 0 < 2 - M - m := by
        push_neg at hL
        nlinarith
      field_simp
      ring
  simp only [hslToRgb]
  rw [if_neg (ne_of_gt hSpos)]
  rw [hq, show 2 * ((M + m) / 2) - M = m by ring]

/-- The shader's HSL conversion pair is an exact round trip on the unit cube
(in exact real arithmetic).  Case analysis mirrors the hue branches of
`rgbToHsl` and the piecewise structure of `hueToRgb`. -/
theorem hsl_roundtrip (r g b : ℝ) (h0r : 0 ≤ r) (h1r : r ≤ 1) (h0g : 0 ≤ g)
    (h1g : g ≤ 1) (h0b : 0 ≤ b) (h1b : b ≤ 1) :
    hslToRgb (rgbToHsl ⟨r, g, b⟩) = ⟨r, g, b⟩ := by
  simp only [rgbToHsl]
  set M := max (max r g) b with hMdef
  set m := min (min r g) b with hmdef
  have hrM : r ≤ M := le_trans (le_max_left r g) (le_max_left _ b)
  have hgM : g ≤ M := le_trans (le_max_right r g) (le_max_left _ b)
  have hbM : b ≤ M := le_max_right _ b
  have hmr : m ≤ r := le_trans (min_le_left _ b) (min_le_left r g)
  have hmg : m ≤ g := le_trans (min_le_left _ b) (min_le_right r g)
  have hmb : m ≤ b := min_le_right _ b
  have hm0 : 0 ≤ m := le_min (le_min h0r h0g) h0b
  have hM1 : M ≤ 1 := max_le (max_le h1r h1g) h1b
  by_cases hd : M - m = 0
  · -- achromatic: delta = 0, S = 0, L reproduces the common channel value
    rw [if_neg (not_not_intro hd)]
    simp only [hslToRgb, if_true]
    rw [Vec3.mk.injEq]
    refine ⟨by linarith, by linarith, by linarith⟩
  · rw [if_pos hd]
    have hmM : m < M := lt_of_le_of_ne (le_trans hmr hrM) fun h => hd (by rw [h]; ring)
    by_cases hMr : M = r
    · -- the maximum is the red channel
      rw [if_pos hMr]
      have hgr2 : g ≤ r := by rw [← hMr]; exact hgM
      have hbr2 : b ≤ r := by rw [← hMr]; exact hbM
      by_cases hgb : g < b
      · -- wrapped hue (+6)
        rw [if_pos hgb]
        have hmeq : m = g := by rw [hmdef, min_eq_right hgr2, min_eq_left hgb.le]
        rw [hslToRgb_pq m M _ hm0 hM1 hmM, hMr, hmeq]
        have hglt : g < r := by
          have h2 := hmM
          rw [hmeq, hMr] at h2
          exact h2
        have hdne : (0 : ℝ) < r - g := by linarith
        have hne2 : r - g ≠ 0 := ne_of_gt hdne
        have hu1 : -1 ≤ (g - b) / (r - g) := by
          rw [le_div_iff hdne]
          linarith
        have hu2 : (g - b) / (r - g) < 0 := div_neg_of_neg_of_pos (by linarith) hdne
        rw [Vec3.mk.injEq]
        refine ⟨?_, ?_, ?_⟩
        · rw [hueToRgb_up_q g r _ (by linarith) (by linarith)]
        · rw [hueToRgb_last g r _ (by linarith) (by linarith)]
        · rw [hueToRgb_mid g r _ (by linarith) (by linarith)]
          field_simp
          ring
      · -- unwrapped hue (+0)
        rw [if_neg hgb]
        push_neg at hgb
        have hmeq : m = b := by rw [hmdef, min_eq_right hgr2, min_eq_right hgb]
        rw [hslToRgb_pq m M _ hm0 hM1 hmM, hMr, hmeq]
        have hblt : b < r := by
          have h2 := hmM
          rw [hmeq, hMr] at h2
          exact h2
        have hdne : (0 : ℝ) < r - b := by linarith
        have hne2 : r - b ≠ 0 := ne_of_gt hdne
        have hu0 : 0 ≤ (g - b) / (r - b) := div_nonneg (by linarith) (by linarith)
        rcases lt_or_eq_of_le hgr2 with hglt | hgeq
        · have hu1 : (g - b) / (r - b) < 1 := (div_lt_one hdne).mpr (by linarith)
          rw [Vec3.mk.injEq]
          refine ⟨?_, ?_, ?_⟩
          · rw [hueToRgb_q b r _ (by linarith) (by linarith)]
          · rw [hueToRgb_lin b r _ (by linarith) (by linarith)]
            field_simp
            try ring
          · rw [hueToRgb_down_p b r _ (by linarith) (by linarith)]
        · have hu : (g - b) / (r - b) = 1 := by
            rw [hgeq]
            exact div_self hne2
          rw [hu, Vec3.mk.injEq]
          refine ⟨?_, ?_, ?_⟩
          · rw [hueToRgb_mid b r _ (by norm_num) (by norm_num)]
            ring
          · rw [hueToRgb_q b r _ (by norm_num) (by norm_num)]
            exact hgeq.symm
          · rw [hueToRgb_down_p b r _ (by norm_num) (by norm_num)]
    · by_cases hMg : M = g
      · -- the maximum is the green channel
        rw [if_neg hMr, if_pos hMg]
        have hrMlt : r < M := lt_of_le_of_ne hrM fun h => hMr h.symm
        have hrg2 : r < g := by rw [hMg] at hrMlt; exact hrMlt
        have hbg2 : b ≤ g := by rw [← hMg]; exact hbM
        have hmin : min r g = r := min_eq_left hrg2.le
        rcases lt_or_le b r with hbr | hrb
        · -- m = b
          have hmeq : m = b := by rw [hmdef, hmin, min_eq_right hbr.le]
          rw [hslToRgb_pq m M _ hm0 hM1 hmM, hMg, hmeq]
          have hdne : (0 : ℝ) < g - b := by
            have h2 := hmM
            rw [hmeq, hMg] at h2
            linarith
          have hne2 : g - b ≠ 0 := ne_of_gt hdne
          have hu1 : -1 ≤ (b - r) / (g - b) := by
            rw [le_div_iff hdne]
            linarith
          have hu2 : (b - r) / (g - b) < 0 := div_neg_of_neg_of_pos (by linarith) hdne
          rw [Vec3.mk.injEq]
          refine ⟨?_, ?_, ?_⟩
          · rw [hueToRgb_mid b g _ (by linarith) (by linarith)]
            field_simp
            try ring
          · rw [hueToRgb_q b g _ (by linarith) (by linarith)]
          · rw [hueToRgb_down_p b g _ (by linarith) (by linarith)]
        · -- m = r
          have hmeq : m = r := by rw [hmdef, hmin, min_eq_left hrb]
          rw [hslToRgb_pq m M _ hm0 hM1 hmM, hMg, hmeq]
          have hdne : (0 : ℝ) < g - r := by linarith
          have hne2 : g - r ≠ 0 := ne_of_gt hdne
          have hu0 : 0 ≤ (b - r) / (g - r) := div_nonneg (by linarith) (by linarith)
          rcases lt_or_eq_of_le hbg2 with hblt | hbeq
          · have hu1 : (b - r) / (g - r) < 1 := (div_lt_one hdne).mpr (by linarith)
            rw [Vec3.mk.injEq]
            refine ⟨?_, ?_, ?_⟩
            · rw [hueToRgb_last r g _ (by linarith) (by linarith)]
            · rw [hueToRgb_q r g _ (by linarith) (by linarith)]
            · rw [hueToRgb_lin r g _ (by linarith) (by linarith)]
              field_simp
              try ring
          · have hu : (b - r) / (g - r) = 1 := by
              rw [hbeq]
              exact div_self hne2
            rw [hu, Vec3.mk.injEq]
            refine ⟨?_, ?_, ?_⟩
            · rw [hueToRgb_last r g _ (by norm_num) (by norm_num)]
            · rw [hueToRgb_mid r g _ (by norm_num) (by norm_num)]
              ring
            · rw [hueToRgb_q r g _ (by norm_num) (by norm_num)]
              exact hbeq.symm
      · -- the maximum is the blue channel
        rw [if_neg hMr, if_neg hMg]
        have hMb : M = b := by
          rcases max_choice (max r g) b with h | h
          · rcases max_choice r g with h2 | h2
            · exact absurd (by rw [hMdef, h, h2]) hMr
            · exact absurd (by rw [hMdef, h, h2]) hMg
          · rw [hMdef, h]
        have hrMlt : r < M := lt_of_le_of_ne hrM fun h => hMr h.symm
        have hgMlt : g < M := lt_of_le_of_ne hgM fun h => hMg h.symm
        have hrb2 : r < b := by rw [hMb] at hrMlt; exact hrMlt
        have hgb2 : g < b := by rw [hMb] at hgMlt; exact hgMlt
        have hmeq0 : m = min r g := by
          rw [hmdef, min_eq_left]
          exact le_of_lt (lt_of_le_of_lt (min_le_left r g) hrb2)
        rcases lt_trichotomy r g with hrg | hrg | hrg
        · -- r < g: m = r
          have hmeq : m = r := by rw [hmeq0, min_eq_left hrg.le]
          rw [hslToRgb_pq m M _ hm0 hM1 hmM, hMb, hmeq]
          have hdne : (0 : ℝ) < b - r := by linarith
          have hne2 : b - r ≠ 0 := ne_of_gt hdne
          have hu2 : (r - g) / (b - r) < 0 := div_neg_of_neg_of_pos (by linarith) hdne
          have hu1 : -1 < (r - g) / (b - r) := by
            rw [lt_div_iff hdne]
            linarith
          rw [Vec3.mk.injEq]
          refine ⟨?_, ?_, ?_⟩
          · rw [hueToRgb_last r b _ (by linarith) (by linarith)]
          · rw [hueToRgb_mid r b _ (by linarith) (by linarith)]
            field_simp
            try ring
          · rw [hueToRgb_q r b _ (by linarith) (by linarith)]
        · -- r = g: hue numerator is zero
          have hmeq : m = r := by rw [hmeq0, hrg, min_self]
          rw [hslToRgb_pq m M _ hm0 hM1 hmM, hMb, hmeq]
          have hu : (r - g) / (b - r) = 0 := by rw [hrg, sub_self, zero_div]
          rw [hu, Vec3.mk.injEq]
          refine ⟨?_, ?_, ?_⟩
          · rw [hueToRgb_last r b _ (by norm_num) (by norm_num)]
          · rw [hueToRgb_last r b _ (by norm_num) (by norm_num)]
            exact hrg
          · rw [hueToRgb_q r b _ (by norm_num) (by norm_num)]
        · -- g < r: m = g
          have hmeq : m = g := by rw [hmeq0, min_eq_right hrg.le]
          rw [hslToRgb_pq m M _ hm0 hM1 hmM, hMb, hmeq]
          have hdne : (0 : ℝ) < b - g := by linarith
          have hne2 : b - g ≠ 0 := ne_of_gt hdne
          have hu0 : 0 < (r - g) / (b - g) := div_pos (by linarith) hdne
          have hu1 : (r - g) / (b - g) < 1 := (div_lt_one hdne).mpr (by linarith)
          rw [Vec3.mk.injEq]
          refine ⟨?_, ?_, ?_⟩
          · rw [hueToRgb_up_lin g b _ (by linarith) (by linarith)]
            field_simp
            try ring
          · rw [hueToRgb_last g b _ (by linarith) (by linarith)]
          · rw [hueToRgb_q g b _ (by linarith) (by linarith)]

/-- `rgbToHsl` on an achromatic color: delta = 0, so S = 0, H = 0, L = v. -/
theorem rgbToHsl_gray (v : ℝ) : rgbToHsl ⟨v, v, v⟩ = ⟨0, 0, v⟩ := by
  simp only [rgbToHsl, max_self, min_self, sub_self]
  norm_num
  try ring

/-- `hslToRgb` on a zero-saturation color reproduces `(L, L, L)` exactly. -/
theorem hslToRgb_gray (hH v : ℝ) : hslToRgb ⟨hH, 0, v⟩ = ⟨v, v, v⟩ := by
  simp only [hslToRgb]
  norm_num

/-- At the exact defaults the pipeline multiplies the green and blue channels
by the 5500 K white-balance coefficients and leaves red and alpha unchanged. -/
theorem transform_defaults (cx cy cz cw : ℝ)
    (h0x : 0 ≤ cx) (h1x : cx ≤ 1) (h0y : 0 ≤ cy) (h1y : cy ≤ 1)
    (h0z : 0 ≤ cz) (h1z : cz ≤ 1) :
    transform ⟨cx, cy, cz, cw⟩ DEFAULT_SETTINGS =
      ⟨cx, cy * (temperatureToRGB 5500).y, cz * (temperatureToRGB 5500).z, cw⟩ := by
  obtain ⟨hgl, hgu⟩ := t5500_y_bounds
  obtain ⟨hbl, hbu⟩ := t5500_z_bounds
  have hx1 : (temperatureToRGB 5500).x = 1 := by rw [temperatureToRGB_5500]
  simp only [transform, DEFAULT_SETTINGS, vmul, vscale]
  norm_num [Real.rpow_zero, hx1]
  have hrt := hsl_roundtrip cx (cy * (temperatureToRGB 5500).y)
    (cz * (temperatureToRGB 5500).z) h0x h1x
    (mul_nonneg h0y (by linarith)) (mul_le_one h1y (by linarith) (by linarith))
    (mul_nonneg h0z (by linarith)) (mul_le_one h1z (by linarith) (by linarith))
  rw [hrt]
  exact ⟨clampR_of_mem h0x h1x,
    clampR_of_mem (mul_nonneg h0y (by linarith)) (mul_le_one h1y (by linarith) (by linarith)),
    clampR_of_mem (mul_nonneg h0z (by linarith)) (mul_le_one h1z (by linarith) (by linarith))⟩

/-- With the temperature at the fit's neutral point 6600 K and every other
field at its default, the pipeline is the identity on the unit cube. -/
theorem transform_calibration (cx cy cz cw : ℝ)
    (h0x : 0 ≤ cx) (h1x : cx ≤ 1) (h0y : 0 ≤ cy) (h1y : cy ≤ 1)
    (h0z : 0 ≤ cz) (h1z : cz ≤ 1) :
    transform ⟨cx, cy, cz, cw⟩ CALIBRATION_SETTINGS = ⟨cx, cy, cz, cw⟩ := by
  simp only [transform, CALIBRATION_SETTINGS, DEFAULT_SETTINGS, vmul, vscale]
  norm_num [Real.rpow_zero, temperatureToRGB_6600]
  rw [hsl_roundtrip cx cy cz h0x h1x h0y h1y h0z h1z]
  exact ⟨clampR_of_mem h0x h1x, clampR_of_mem h0y h1y, clampR_of_mem h0z h1z⟩

/-- Evaluating the pipeline on mid-dark gray 0.4 with an explicit contrast
value `c` (temperature 6600, all other fields default): the contrast stage
maps 0.4 to `(0.4 - 0.5) * ((c - 50)/50 + 1) + 0.5` and the result is clamped. -/
theorem transform_gray_contrast (c : ℝ) :
    transform ⟨0.4, 0.4, 0.4, 1⟩ (contrastSettings c) =
      ⟨clampR 0 1 ((0.4 - 0.5) * ((c - 50) / 50 + 1) + 0.5),
       clampR 0 1 ((0.4 - 0.5) * ((c - 50) / 50 + 1) + 0.5),
       clampR 0 1 ((0.4 - 0.5) * ((c - 50) / 50 + 1) + 0.5), 1⟩ := by
  simp only [transform, contrastSettings, CALIBRATION_SETTINGS, DEFAULT_SETTINGS, vmul, vscale]
  norm_num [Real.rpow_zero, temperatureToRGB_6600, rgbToHsl_gray, hslToRgb_gray]

/-! ### Histogram counting lemmas -/

theorem sum_update_add (f : ℕ → ℕ) (k : ℕ) (hk : k < 256) :
    ∑ i in Finset.range 256, Function.update f k (f k + 1) i
      = (∑ i in Finset.range 256, f i) + 1 := by
  have hm : k ∈ Finset.range 256 := Finset.mem_range.mpr hk
  rw [Finset.sum_update_of_mem hm, Finset.sdiff_singleton_eq_erase]
  conv_rhs => rw [← Finset.add_sum_erase _ f hm]
  omega

theorem lumBin_lt (p : Pixel) : lumBin p < 256 := by
  unfold lumBin
  have hr : (p.r : ℚ) ≤ 255 := by exact_mod_cast Nat.lt_succ_iff.mp p.r.isLt
  have hg : (p.g : ℚ) ≤ 255 := by exact_mod_cast Nat.lt_succ_iff.mp p.g.isLt
  have hb : (p.b : ℚ) ≤ 255 := by exact_mod_cast Nat.lt_succ_iff.mp p.b.isLt
  have hq : (0.2126 * (p.r : ℚ) + 0.7152 * (p.g : ℚ) + 0.0722 * (p.b : ℚ)) ≤ 255 := by
    linarith
  have h2 : round (0.2126 * (p.r : ℚ) + 0.7152 * (p.g : ℚ) + 0.0722 * (p.b : ℚ)) ≤ 255 := by
    rw [round_eq]
    calc ⌊0.2126 * (p.r : ℚ) + 0.7152 * (p.g : ℚ) + 0.0722 * (p.b : ℚ) + 1 / 2⌋
        ≤ ⌊(255 : ℚ) + 1 / 2⌋ := Int.floor_le_floor (by linarith)
      _ = 255 := by norm_num
  have := Int.toNat_le.mpr h2
  omega

theorem histStep_sums (h : Histogram) (p : Pixel) :
    (∑ i in Finset.range 256, (histStep h p).r i = (∑ i in Finset.range 256, h.r i) + 1) ∧
    (∑ i in Finset.range 256, (histStep h p).g i = (∑ i in Finset.range 256, h.g i) + 1) ∧
    (∑ i in Finset.range 256, (histStep h p).b i = (∑ i in Finset.range 256, h.b i) + 1) ∧
    (∑ i in Finset.range 256, (histStep h p).luminance i
      = (∑ i in Finset.range 256, h.luminance i) + 1) := by
  refine ⟨?_, ?_, ?_, ?_⟩
  · exact sum_update_add h.r (p.r : ℕ) p.r.isLt
  · exact sum_update_add h.g (p.g : ℕ) p.g.isLt
  · exact sum_update_add h.b (p.b : ℕ) p.b.isLt
  · exact sum_update_add h.luminance (lumBin p) (lumBin_lt p)

theorem foldl_histStep_sums (pixels : List Pixel) (acc : Histogram) :
    (∑ i in Finset.range 256, (pixels.foldl histStep acc).r i
      = (∑ i in Finset.range 256, acc.r i) + pixels.length) ∧
    (∑ i in Finset.range 256, (pixels.foldl histStep acc).g i
      = (∑ i in Finset.range 256, acc.g i) + pixels.length) ∧
    (∑ i in Finset.range 256, (pixels.foldl histStep acc).b i
      = (∑ i in Finset.range 256, acc.b i) + pixels.length) ∧
    (∑ i in Finset.range 256, (pixels.foldl histStep acc).luminance i
      = (∑ i in Finset.range 256, acc.luminance i) + pixels.length) := by
  induction pixels generalizing acc with
  | nil => simp
  | cons p ps ih =>
    simp only [List.foldl_cons, List.length_cons]
    obtain ⟨h1, h2, h3, h4⟩ := ih (histStep acc p)
    obtain ⟨s1, s2, s3, s4⟩ := histStep_sums acc p
    refine ⟨?_, ?_, ?_, ?_⟩
    · rw [h1, s1]; omega
    · rw [h2, s2]; omega
    · rw [h3, s3]; omega
    · rw [h4, s4]; omega

/-! ### The first-index search of calculateAutoSettings -/

theorem find?_range_eq_some {p : ℕ → Bool} {n k : ℕ} (hk : k < n)
    (hfalse : ∀ i, i < k → p i = false) (htrue : p k = true) :
    (List.range n).find? p = some k := by
  induction n with
  | zero => omega
  | succ n ih =>
    rw [List.range_succ, List.find?_append]
    rcases Nat.lt_or_ge k n with h | h
    · rw [ih h]
      rfl
    · have hkn : k = n := by omega
      subst hkn
      have hnone : (List.range k).find? p = none := by
        rw [List.find?_eq_none]
        intro x hx
        simp [hfalse x (List.mem_range.mp hx)]
      rw [hnone]
      simp [List.find?, htrue]

theorem blackPoint_le (h : Histogram) : blackPoint h ≤ 255 := by
  unfold blackPoint
  cases hf : (List.range 256).find? fun i =>
      decide ((totalPixels h : ℚ) * 0.005 < ∑ j in Finset.range (i + 1), (h.luminance j : ℚ)) with
  | none => simp
  | some k =>
    have hk : k < 256 := List.mem_range.mp (List.find?_mem hf)
    simp only [Option.getD_some]
    omega

theorem whitePoint_le (h : Histogram) : whitePoint h ≤ 255 := Nat.sub_le _ _

/-! ### Evaluating the auto-adjust pipeline on the all-white one-pixel image -/

theorem totalPixels_histAll255 : totalPixels histAll255 = 1 := by
  simp [totalPixels, histAll255, Finset.sum_ite_eq']

theorem blackPoint_histAll255 : blackPoint histAll255 = 255 := by
  have hres : (List.range 256).find? (fun i =>
      decide ((totalPixels histAll255 : ℚ) * 0.005 <
        ∑ j in Finset.range (i + 1), (histAll255.luminance j : ℚ))) = some 255 := by
    apply find?_range_eq_some (by norm_num)
    · intro i hi
      have hsum : (∑ j in Finset.range (i + 1), (histAll255.luminance j : ℚ)) = 0 := by
        apply Finset.sum_eq_zero
        intro j hj
        have hj2 : j ≠ 255 := by
          have := Finset.mem_range.mp hj
          omega
        simp [histAll255, hj2]
      rw [decide_eq_false_iff_not, totalPixels_histAll255, hsum]
      norm_num
    · have hsum : (∑ j in Finset.range (255 + 1), (histAll255.luminance j : ℚ)) = 1 := by
        simp [histAll255, Finset.sum_ite_eq']
      rw [decide_eq_true_eq, totalPixels_histAll255, hsum]
      norm_num
  unfold blackPoint
  rw [hres]
  rfl

theorem autoSettings_blacks_histAll255 : (calculateAutoSettings histAll255).blacks = 255 / 2 := by
  simp only [calculateAutoSettings, blackPoint_histAll255]
  norm_num

/-! ### Tone-curve evaluation at the defaults -/

theorem pipelineByte_default (i : ℕ) (hi : i < 256) :
    pipelineByte DEFAULT_SETTINGS i = (i : ℤ) := by
  unfold pipelineByte
  have h0 : (0 : ℝ) ≤ (i : ℝ) / 255 := by positivity
  have h1 : (i : ℝ) / 255 ≤ 1 := by
    rw [div_le_one (by norm_num)]
    exact_mod_cast Nat.lt_succ_iff.mp hi
  rw [transform_defaults ((i : ℝ) / 255) ((i : ℝ) / 255) ((i : ℝ) / 255) 1 h0 h1 h0 h1 h0 h1]
  show round (255 * ((i : ℝ) / 255)) = (i : ℤ)
  rw [show (255 : ℝ) * ((i : ℝ) / 255) = (i : ℝ) by field_simp]
  exact round_natCast i

theorem curve_default :
    calculateToneCurves DEFAULT_SETTINGS = (List.range 256).map fun i => ⟨i, (i : ℤ)⟩ := by
  unfold calculateToneCurves
  apply List.map_congr_left
  intro i hi
  have hi2 : i < 256 := List.mem_range.mp hi
  rw [pipelineByte_default i hi2]
  have hmax : max 0 (i : ℤ) = (i : ℤ) := max_eq_right (by positivity)
  have hmin : min 255 (i : ℤ) = (i : ℤ) := min_eq_right (by exact_mod_cast Nat.lt_succ_iff.mp hi2)
  rw [hmax, hmin]

/-! ### Claim theorems -/

/-- Claim C1, counterexample: the spec's identity property fails at the exact
defaults.  On the pure blue input (0,0,1) the default pipeline returns blue
channel `(temperatureToRGB 5500).z ≈ 0.8716`, which is further than 1e-4 from
the input value 1. -/
theorem c1_counterexample :
    1 / 10000 < |(transform ⟨0, 0, 1, 1⟩ DEFAULT_SETTINGS).z - 1| := by
  rw [transform_defaults 0 0 1 1 le_rfl zero_le_one le_rfl zero_le_one zero_le_one le_rfl]
  obtain ⟨hbl, hbu⟩ := t5500_z_bounds
  show 1 / 10000 < |1 * (temperatureToRGB 5500).z - 1|
  rw [abs_sub_comm, abs_of_pos (by linarith)]
  linarith

/-- Claim C1, amended: at the exact defaults the pipeline is not the identity;
it returns the input with green and blue scaled by the 5500 K white-balance
coefficients.  The identity property holds instead with temperature at the
fit's calibration point 6600 K and every other field at its default. -/
theorem c1_theorem (cx cy cz cw : ℝ)
    (h0x : 0 ≤ cx) (h1x : cx ≤ 1) (h0y : 0 ≤ cy) (h1y : cy ≤ 1)
    (h0z : 0 ≤ cz) (h1z : cz ≤ 1) :
    transform ⟨cx, cy, cz, cw⟩ DEFAULT_SETTINGS =
      ⟨cx, cy * (temperatureToRGB 5500).y, cz * (temperatureToRGB 5500).z, cw⟩ ∧
    transform ⟨cx, cy, cz, cw⟩ CALIBRATION_SETTINGS = ⟨cx, cy, cz, cw⟩ :=
  ⟨transform_defaults cx cy cz cw h0x h1x h0y h1y h0z h1z,
   transform_calibration cx cy cz cw h0x h1x h0y h1y h0z h1z⟩

/-- Claim C1, witness: the amended statement evaluated at (1/2, 1/3, 1/4). -/
theorem c1_witness :
    transform ⟨1 / 2, 1 / 3, 1 / 4, 1⟩ DEFAULT_SETTINGS =
      ⟨1 / 2, 1 / 3 * (temperatureToRGB 5500).y, 1 / 4 * (temperatureToRGB 5500).z, 1⟩ ∧
    transform ⟨1 / 2, 1 / 3, 1 / 4, 1⟩ CALIBRATION_SETTINGS = ⟨1 / 2, 1 / 3, 1 / 4, 1⟩ :=
  c1_theorem (1 / 2) (1 / 3) (1 / 4) 1 (by norm_num) (by norm_num) (by norm_num)
    (by norm_num) (by norm_num) (by norm_num)

/-- Claim C2, counterexample: at 5500 K the white-balance multiplier is not
(1,1,1); its green component is at most 0.94. -/
theorem c2_counterexample : temperatureToRGB 5500 ≠ ⟨1, 1, 1⟩ := by
  intro h
  have hy := congrArg Vec3.y h
  obtain ⟨hgl, hgu⟩ := t5500_y_bounds
  rw [hy] at hgu
  norm_num at hgu

/-- Claim C2, amended: the Kelvin fit is calibrated at 6600 K, not at the
default 5500 K.  At 5500 K the clamped multiplier is `(1, g, b)` with
`g ∈ [0.92, 0.94]` and `b ∈ [0.86, 0.88]`; at 6600 K it is exactly (1,1,1). -/
theorem c2_theorem :
    (temperatureToRGB 5500).x = 1 ∧
    0.92 ≤ (temperatureToRGB 5500).y ∧ (temperatureToRGB 5500).y ≤ 0.94 ∧
    0.86 ≤ (temperatureToRGB 5500).z ∧ (temperatureToRGB 5500).z ≤ 0.88 ∧
    temperatureToRGB 6600 = ⟨1, 1, 1⟩ :=
  ⟨by rw [temperatureToRGB_5500], t5500_y_bounds.1, t5500_y_bounds.2,
   t5500_z_bounds.1, t5500_z_bounds.2, temperatureToRGB_6600⟩

/-- Claim C3: for every ParameterSet the curve sampler returns exactly 256
points whose x coordinates are exactly 0..255 in order, and at the default
settings the curve is the identity (y = x), because the red white-balance
coefficient is 1 and every other default stage fixes the red channel. -/
theorem c3_theorem (s : PhotoSettings) :
    (calculateToneCurves s).length = 256 ∧
    (calculateToneCurves s).map CurvePoint.x = List.range 256 ∧
    calculateToneCurves DEFAULT_SETTINGS = (List.range 256).map fun i => ⟨i, (i : ℤ)⟩ := by
  refine ⟨?_, ?_, curve_default⟩
  · simp [calculateToneCurves]
  · unfold calculateToneCurves
    rw [List.map_map]
    exact (List.map_congr_left fun i _ => rfl).trans (List.map_id _)

/-- Claim C4, counterexample: below 1000 K the shader does not fall back to the
identity white balance; at 900 K the blue channel of the multiplier is 0. -/
theorem c4_counterexample : temperatureToRGB 900 ≠ ⟨1, 1, 1⟩ := by
  intro h
  have hz := congrArg Vec3.z h
  have h900 : (temperatureToRGB 900).z = 0 := by
    simp only [temperatureToRGB]
    norm_num [clampR]
  rw [h900] at hz
  norm_num at hz

/-- Claim C4, amended: there is no sub-1000 K identity fallback in the code.
For any kelvin below 1000 the fit's own branches apply: red is 1, blue is 0
(`temp = kelvin/100 ≤ 19`), and the multiplier is never (1,1,1).  (Within the
declared 2000-12000 K range the log arguments are positive, so the shader
never evaluates log on a non-positive argument in range.) -/
theorem c4_theorem (kelvin : ℝ) (hk : kelvin < 1000) :
    (temperatureToRGB kelvin).x = 1 ∧ (temperatureToRGB kelvin).z = 0 ∧
    temperatureToRGB kelvin ≠ ⟨1, 1, 1⟩ := by
  have ht1 : kelvin / 100 ≤ 66 := by linarith
  have ht2 : ¬(66 : ℝ) ≤ kelvin / 100 := by
    intro h2
    linarith
  have ht3 : kelvin / 100 ≤ 19 := by linarith
  have hx : (temperatureToRGB kelvin).x = 1 := by
    simp only [temperatureToRGB]
    rw [if_pos ht1, clampR_of_mem zero_le_one le_rfl]
  have hz : (temperatureToRGB kelvin).z = 0 := by
    simp only [temperatureToRGB]
    rw [if_neg ht2, if_pos ht3, clampR_of_mem le_rfl zero_le_one]
  refine ⟨hx, hz, ?_⟩
  intro h
  have := congrArg Vec3.z h
  rw [hz] at this
  norm_num at this

/-- Claim C4, witness: the amended statement evaluated at 900 K. -/
theorem c4_witness :
    (temperatureToRGB 900).x = 1 ∧ (temperatureToRGB 900).z = 0 ∧
    temperatureToRGB 900 ≠ ⟨1, 1, 1⟩ :=
  c4_theorem 900 (by norm_num)

/-- Claim C5, counterexample: the auto-adjust patch is not always within the
declared field ranges.  On the all-white one-pixel histogram the black point
is 255 and `blacks = max(-50, 255/2) = 127.5 > 100`, outside blacks' declared
range [-100, 100]. -/
theorem c5_counterexample : 100 < (calculateAutoSettings histAll255).blacks := by
  rw [autoSettings_blacks_histAll255]
  norm_num

/-- Claim C5, amended: for any histogram with at least one pixel, exposure lies
in [-2,2], contrast in [40,100], temperature in [2000,12000] and whites in
[0,50] — all within their declared ranges — but blacks only lies in
[0, 127.5] = [0, 255/2] and exceeds 100 whenever the black point exceeds 200;
the code's `Math.max(-50, blackPoint / 2)` bounds it from below only. -/
theorem c5_theorem (h : Histogram) (hpos : 0 < totalPixels h) :
    (-2 ≤ (calculateAutoSettings h).exposure ∧ (calculateAutoSettings h).exposure ≤ 2) ∧
    (40 ≤ (calculateAutoSettings h).contrast ∧ (calculateAutoSettings h).contrast ≤ 100) ∧
    (2000 ≤ (calculateAutoSettings h).temperature ∧
      (calculateAutoSettings h).temperature ≤ 12000) ∧
    (0 ≤ (calculateAutoSettings h).whites ∧ (calculateAutoSettings h).whites ≤ 50) ∧
    (0 ≤ (calculateAutoSettings h).blacks ∧ (calculateAutoSettings h).blacks ≤ 255 / 2) := by
  have hwp0 : whitePoint h ≤ 255 := whitePoint_le h
  have hbp0 : blackPoint h ≤ 255 := blackPoint_le h
  have hwp : ((whitePoint h : ℕ) : ℝ) ≤ 255 := by
    have h2 : ((whitePoint h : ℕ) : ℝ) ≤ ((255 : ℕ) : ℝ) := Nat.cast_le.mpr hwp0
    simpa using h2
  have hbp : ((blackPoint h : ℕ) : ℝ) ≤ 255 := by
    have h2 : ((blackPoint h : ℕ) : ℝ) ≤ ((255 : ℕ) : ℝ) := Nat.cast_le.mpr hbp0
    simpa using h2
  have hbpn : (0 : ℝ) ≤ ((blackPoint h : ℕ) : ℝ) := Nat.cast_nonneg _
  simp only [calculateAutoSettings]
  refine ⟨⟨le_max_left _ _, max_le (by norm_num) (min_le_left _ _)⟩,
    ⟨le_min (by norm_num) (le_max_left _ _), min_le_left _ _⟩,
    ⟨le_min (by norm_num) (le_max_left _ _), min_le_left _ _⟩,
    ⟨le_min (by norm_num) (by linarith), min_le_left _ _⟩,
    ⟨le_trans (div_nonneg hbpn (by norm_num)) (le_max_right _ _), max_le (by norm_num) (by linarith)⟩⟩

/-- Claim C5, witness: the amended statement evaluated on the all-white
one-pixel histogram. -/
theorem c5_witness :
    (-2 ≤ (calculateAutoSettings histAll255).exposure ∧
      (calculateAutoSettings histAll255).exposure ≤ 2) ∧
    (40 ≤ (calculateAutoSettings histAll255).contrast ∧
      (calculateAutoSettings histAll255).contrast ≤ 100) ∧
    (2000 ≤ (calculateAutoSettings histAll255).temperature ∧
      (calculateAutoSettings histAll255).temperature ≤ 12000) ∧
    (0 ≤ (calculateAutoSettings histAll255).whites ∧
      (calculateAutoSettings histAll255).whites ≤ 50) ∧
    (0 ≤ (calculateAutoSettings histAll255).blacks ∧
      (calculateAutoSettings histAll255).blacks ≤ 255 / 2) :=
  c5_theorem histAll255 (by rw [totalPixels_histAll255]; norm_num)

/-- Claim C6, counterexample: the pipeline does not clamp out-of-range fields
to their boundary.  With temperature at the neutral 6600 K, contrast 200
(outside [0,100]) and contrast 100 (the nearest boundary) give different
outputs on the gray input 0.4. -/
theorem c6_counterexample :
    transform ⟨0.4, 0.4, 0.4, 1⟩ (contrastSettings 200) ≠
      transform ⟨0.4, 0.4, 0.4, 1⟩ (contrastSettings 100) := by
  intro h
  have hx := congrArg Vec4.x h
  rw [transform_gray_contrast 200, transform_gray_contrast 100] at hx
  have h200 : clampR 0 1 ((0.4 - 0.5) * ((200 - 50) / 50 + 1) + 0.5) = 0.1 := by
    norm_num [clampR]
  have h100 : clampR 0 1 ((0.4 - 0.5) * ((100 - 50) / 50 + 1) + 0.5) = 0.3 := by
    norm_num [clampR]
  simp only at hx
  rw [h200, h100] at hx
  norm_num at hx

/-- Claim C6, amended: the shader uses uniform values exactly as supplied and
performs no range clamping (the UI sliders restrict the range instead).  On
gray 0.4 with temperature 6600 K, contrast 200 yields output gray 0.1 while
the boundary value 100 yields gray 0.3. -/
theorem c6_theorem :
    transform ⟨0.4, 0.4, 0.4, 1⟩ (contrastSettings 200) = ⟨0.1, 0.1, 0.1, 1⟩ ∧
    transform ⟨0.4, 0.4, 0.4, 1⟩ (contrastSettings 100) = ⟨0.3, 0.3, 0.3, 1⟩ := by
  rw [transform_gray_contrast 200, transform_gray_contrast 100]
  constructor
  · rw [show ((0.4 : ℝ) - 0.5) * ((200 - 50) / 50 + 1) + 0.5 = 0.1 by norm_num]
    rw [clampR_of_mem (by norm_num) (by norm_num)]
  · rw [show ((0.4 : ℝ) - 0.5) * ((100 - 50) / 50 + 1) + 0.5 = 0.3 by norm_num]
    rw [clampR_of_mem (by norm_num) (by norm_num)]

/-- Claim C7: the final clamp puts every output channel in [0,1] and alpha is
carried through unchanged, for every input color and in-range ParameterSet. -/
theorem c7_theorem (c : Vec4) (s : PhotoSettings) (hs : inRange s) :
    (0 ≤ (transform c s).x ∧ (transform c s).x ≤ 1) ∧
    (0 ≤ (transform c s).y ∧ (transform c s).y ≤ 1) ∧
    (0 ≤ (transform c s).z ∧ (transform c s).z ≤ 1) ∧
    (transform c s).w = c.w :=
  ⟨⟨clampR_nonneg _, clampR_le_one _⟩, ⟨clampR_nonneg _, clampR_le_one _⟩,
   ⟨clampR_nonneg _, clampR_le_one _⟩, rfl⟩

/-- Claim C7, witness: the clamp guarantee evaluated at an out-of-cube input
with the default (in-range) settings. -/
theorem c7_witness :
    (0 ≤ (transform ⟨2, -1, 1 / 2, 7 / 10⟩ DEFAULT_SETTINGS).x ∧
      (transform ⟨2, -1, 1 / 2, 7 / 10⟩ DEFAULT_SETTINGS).x ≤ 1) ∧
    (0 ≤ (transform ⟨2, -1, 1 / 2, 7 / 10⟩ DEFAULT_SETTINGS).y ∧
      (transform ⟨2, -1, 1 / 2, 7 / 10⟩ DEFAULT_SETTINGS).y ≤ 1) ∧
    (0 ≤ (transform ⟨2, -1, 1 / 2, 7 / 10⟩ DEFAULT_SETTINGS).z ∧
      (transform ⟨2, -1, 1 / 2, 7 / 10⟩ DEFAULT_SETTINGS).z ≤ 1) ∧
    (transform ⟨2, -1, 1 / 2, 7 / 10⟩ DEFAULT_SETTINGS).w = (⟨2, -1, 1 / 2, 7 / 10⟩ : Vec4).w :=
  c7_theorem ⟨2, -1, 1 / 2, 7 / 10⟩ DEFAULT_SETTINGS
    (by norm_num [inRange, DEFAULT_SETTINGS])

/-- Claim C8: each of the four 256-bin histograms counts every pixel exactly
once, so each sums to width * height. -/
theorem c8_theorem (pixels : List Pixel) (w h : ℕ) (hwh : pixels.length = w * h) :
    (∑ i in Finset.range 256, (calculateHistogram pixels).r i = w * h) ∧
    (∑ i in Finset.range 256, (calculateHistogram pixels).g i = w * h) ∧
    (∑ i in Finset.range 256, (calculateHistogram pixels).b i = w * h) ∧
    (∑ i in Finset.range 256, (calculateHistogram pixels).luminance i = w * h) := by
  obtain ⟨h1, h2, h3, h4⟩ := foldl_histStep_sums pixels emptyHistogram
  have e0 : ∑ i in Finset.range 256, emptyHistogram.r i = 0 := by simp [emptyHistogram]
  have e1 : ∑ i in Finset.range 256, emptyHistogram.g i = 0 := by simp [emptyHistogram]
  have e2 : ∑ i in Finset.range 256, emptyHistogram.b i = 0 := by simp [emptyHistogram]
  have e3 : ∑ i in Finset.range 256, emptyHistogram.luminance i = 0 := by simp [emptyHistogram]
  rw [e0, hwh] at h1
  rw [e1, hwh] at h2
  rw [e2, hwh] at h3
  rw [e3, hwh] at h4
  unfold calculateHistogram
  exact ⟨by omega, by omega, by omega, by omega⟩

/-- Claim C8, witness: the sum property evaluated on a one-pixel buffer. -/
theorem c8_witness :
    (∑ i in Finset.range 256, (calculateHistogram [⟨0, 0, 0, 255⟩]).r i = 1 * 1) ∧
    (∑ i in Finset.range 256, (calculateHistogram [⟨0, 0, 0, 255⟩]).g i = 1 * 1) ∧
    (∑ i in Finset.range 256, (calculateHistogram [⟨0, 0, 0, 255⟩]).b i = 1 * 1) ∧
    (∑ i in Finset.range 256, (calculateHistogram [⟨0, 0, 0, 255⟩]).luminance i = 1 * 1) :=
  c8_theorem [⟨0, 0, 0, 255⟩] 1 1 rfl

/-- Claim C9: in exact real arithmetic the shader's HSL round trip reproduces
every RGB triple in the unit cube exactly (hence within the spec's 1e-4
tolerance), rgbToHsl sends achromatic inputs to saturation 0, and hslToRgb at
saturation 0 reproduces `(L, L, L)` exactly. -/
theorem c9_theorem (x y z : ℝ) (h0x : 0 ≤ x) (h1x : x ≤ 1) (h0y : 0 ≤ y)
    (h1y : y ≤ 1) (h0z : 0 ≤ z) (h1z : z ≤ 1) :
    (|(hslToRgb (rgbToHsl ⟨x, y, z⟩)).x - x| ≤ 1 / 10000 ∧
     |(hslToRgb (rgbToHsl ⟨x, y, z⟩)).y - y| ≤ 1 / 10000 ∧
     |(hslToRgb (rgbToHsl ⟨x, y, z⟩)).z - z| ≤ 1 / 10000) ∧
    (∀ v : ℝ, (rgbToHsl ⟨v, v, v⟩).y = 0) ∧
    (∀ hH v : ℝ, hslToRgb ⟨hH, 0, v⟩ = ⟨v, v, v⟩) := by
  refine ⟨?_, ?_, fun hH v => hslToRgb_gray hH v⟩
  · rw [hsl_roundtrip x y z h0x h1x h0y h1y h0z h1z]
    norm_num
  · intro v
    rw [rgbToHsl_gray]

/-- Claim C9, witness: the round trip and achromatic laws evaluated at
(1/2, 1/4, 3/4). -/
theorem c9_witness :
    (|(hslToRgb (rgbToHsl ⟨1 / 2, 1 / 4, 3 / 4⟩)).x - 1 / 2| ≤ 1 / 10000 ∧
     |(hslToRgb (rgbToHsl ⟨1 / 2, 1 / 4, 3 / 4⟩)).y - 1 / 4| ≤ 1 / 10000 ∧
     |(hslToRgb (rgbToHsl ⟨1 / 2, 1 / 4, 3 / 4⟩)).z - 3 / 4| ≤ 1 / 10000) ∧
    (∀ v : ℝ, (rgbToHsl ⟨v, v, v⟩).y = 0) ∧
    (∀ hH v : ℝ, hslToRgb ⟨hH, 0, v⟩ = ⟨v, v, v⟩) :=
  c9_theorem (1 / 2) (1 / 4) (3 / 4) (by norm_num) (by norm_num) (by norm_num)
    (by norm_num) (by norm_num) (by norm_num)

/-- Claim C10: the auto-adjust patch explicitly sets highlights, shadows,
tint, vibrance and saturation to 0, so the object-spread merge in
handleAutoAdjust overwrites any previously user-set values of those five
fields with 0, for every previous settings object and every histogram. -/
theorem c10_theorem (prev : PhotoSettings) (h : Histogram) :
    (mergedAutoSettings prev h).highlights = 0 ∧
    (mergedAutoSettings prev h).shadows = 0 ∧
    (mergedAutoSettings prev h).tint = 0 ∧
    (mergedAutoSettings prev h).vibrance = 0 ∧
    (mergedAutoSettings prev h).saturation = 0 :=
  ⟨rfl, rfl, rfl, rfl, rfl⟩

end ToneCurve
